import Mathlib

/-!
Particle pools of `main.cpp`.

A shallow embedding of the particle engine of `src/main.cpp`: the `Particle`
record, the recycling allocator `FindUnusedParticle`, the emission count, the
spawn loops, the simulation loops that also fill the GPU staging buffers, and
the depth sort.

Conventions of the embedding.

* `float` and `double` values are exact rationals (`ℚ`): rounding, infinities
  and NaN are outside the model.
* A pool is the list of the `MaxParticles` slots of the array that the program
  uses (`ParticlesContainer[0 .. MaxParticles)`), so `MaxParticles` is the
  length of the list; the source fixes it to `100000`, the theorems hold for
  every capacity.
* Global variables are passed explicitly: a function that updates a global
  returns its new value.
-/

namespace ParticleEngine

/-! ## Data model -/

/-- A `glm::vec3`. -/
structure Vec3 where
  x : ℚ
  y : ℚ
  z : ℚ
deriving DecidableEq

namespace Vec3

/-- Component-wise sum (`glm::vec3 + glm::vec3`). -/
def add (u v : Vec3) : Vec3 := ⟨u.x + v.x, u.y + v.y, u.z + v.z⟩

/-- Component-wise difference (`glm::vec3 - glm::vec3`). -/
def sub (u v : Vec3) : Vec3 := ⟨u.x - v.x, u.y - v.y, u.z - v.z⟩

/-- Product with a scalar (`glm::vec3 * float`). -/
def smul (u : Vec3) (k : ℚ) : Vec3 := ⟨u.x * k, u.y * k, u.z * k⟩

/-- Squared Euclidean norm (`glm::length2`). -/
def length2 (u : Vec3) : ℚ := u.x * u.x + u.y * u.y + u.z * u.z

end Vec3

/-- The CPU representation of a particle (`struct Particle`). The colour
channels are `unsigned char`. -/
structure Particle where
  pos : Vec3
  speed : Vec3
  r : Nat
  g : Nat
  b : Nat
  a : Nat
  size : ℚ
  angle : ℚ
  weight : ℚ
  life : ℚ
  cameradistance : ℚ
deriving DecidableEq

/-- The comparison `Particle::operator<`: far particles come first. -/
def Particle.lt (this that : Particle) : Bool :=
  decide (this.cameradistance > that.cameradistance)

/-- The capacity `const int MaxParticles = 100000`. -/
def MaxParticles : Nat := 100000

/-- The initial value of the global cursor, `int LastUsedParticle = 0`. -/
def LastUsedParticle_init : Nat := 0

/-! ## The allocator -/

/-- The test `ParticlesContainer[i].life < 0` of `FindUnusedParticle`. -/
def isUnused (pool : List Particle) (i : Nat) : Bool :=
  match pool[i]? with
  | some p => decide (p.life < 0)
  | none => false

/-- One `for` loop of `FindUnusedParticle`: starting at `i`, look at `fuel`
consecutive slots and return the first one whose `life < 0`. -/
def scanUnused (pool : List Particle) : Nat → Nat → Option Nat
  | _, 0 => none
  | i, fuel + 1 => if isUnused pool i then some i else scanUnused pool (i + 1) fuel

/-- `FindUnusedParticle()`, over the pool `ParticlesContainer` and the global
`LastUsedParticle`. The result is the returned index and the new value of
`LastUsedParticle`. -/
def FindUnusedParticle (pool : List Particle) (LastUsedParticle : Nat) : Nat × Nat :=
  match scanUnused pool LastUsedParticle (pool.length - LastUsedParticle) with
  | some i => (i, i)
  | none =>
    match scanUnused pool 0 LastUsedParticle with
    | some i => (i, i)
    | none => (0, LastUsedParticle)

/-! ## Emission -/

/-- A C cast `(int) x` of a floating value: truncation toward zero. -/
def toInt (x : ℚ) : Int := if 0 ≤ x then ⌊x⌋ else ⌈x⌉

/-- The `float` literal `0.016f`: the binary32 value nearest to `0.016`,
which is `8589935 / 2^29`. -/
def f0_016 : ℚ := 8589935 / 536870912

/-- The smoke emission count of a frame:
`int newparticles = (int)(delta*10000.0);
 if (newparticles > (int)(0.016f*10000.0)) newparticles = (int)(0.016f*10000.0);` -/
def newparticles (delta : ℚ) : Int :=
  if toInt (delta * 10000) > toInt (f0_016 * 10000) then toInt (f0_016 * 10000)
  else toInt (delta * 10000)

/-- The rain emission count of a frame:
`int newparticles_rain = (int)(delta*1000000.0);
 if (newparticles_rain > (int)(0.016f*1000000.0)) newparticles_rain = (int)(0.016f*1000000.0);` -/
def newparticles_rain (delta : ℚ) : Int :=
  if toInt (delta * 1000000) > toInt (f0_016 * 1000000) then toInt (f0_016 * 1000000)
  else toInt (delta * 1000000)

/-! ## Spawning -/

/-- The assignment `pool[i].field = ...` of several fields of slot `i`:
the slot is replaced by `f` of its old content. -/
def updateSlot (pool : List Particle) (i : Nat) (f : Particle → Particle) : List Particle :=
  match pool[i]? with
  | some p => pool.set i (f p)
  | none => pool

/-- The body of the smoke spawn loop on the chosen slot. `rand k`, `rand (k+1)`,
... are the successive results of `rand()`, in textual order. The fields
`angle`, `weight` and `cameradistance` are not assigned. -/
def spawnSmoke (rand : Nat → Nat) (k : Nat) (p : Particle) : Particle :=
  { p with
    life := 1
    pos := ⟨2, 3 / 2, -7⟩
    speed := Vec3.add ⟨0, 3 / 2, -10⟩
      (Vec3.smul ⟨(((rand k % 2000 : Nat) : ℚ) - 1000) / 1000,
                  -((((rand (k + 1) % 2000 : Nat) : ℚ) - 1000) / 1000),
                  (((rand (k + 2) % 2000 : Nat) : ℚ) - 1000) / 1000⟩ (5 / 2))
    r := (rand (k + 3) % 10 + 170) % 256
    g := (rand (k + 4) % 10 + 170) % 256
    b := (rand (k + 5) % 10 + 170) % 256
    a := ((rand (k + 6) % 256) / 3) % 256
    size := ((rand (k + 7) % 1000 : Nat) : ℚ) / 2000 + 1 / 10 }

/-- The body of the rain spawn loop on the chosen slot. -/
def spawnRain (rand : Nat → Nat) (k : Nat) (p : Particle) : Particle :=
  { p with
    life := 6
    pos := ⟨((rand k % 10 : Nat) : ℚ) - 5, 10, ((rand (k + 1) % 24 : Nat) : ℚ) - 18⟩
    speed := ⟨0, -10, 1⟩
    r := (rand (k + 2) % 10 + 26) % 256
    g := (rand (k + 3) % 10 + 35) % 256
    b := (rand (k + 4) % 10 + 126) % 256
    a := 50
    size := ((rand (k + 5) % 1000 : Nat) : ℚ) / 2000 + 1 / 10 }

/-- The smoke spawn loop `for (i = 0; i < newparticles; i++)`, run `n` times:
each turn asks the allocator for a slot of `ParticlesContainer` and
initialises it. The result is the pool and `LastUsedParticle`. -/
def smokeSpawnLoop (rand : Nat → Nat) :
    Nat → Nat → List Particle → Nat → List Particle × Nat
  | 0, _, pool, cursor => (pool, cursor)
  | n + 1, k, pool, cursor =>
    smokeSpawnLoop rand n (k + 8)
      (updateSlot pool (FindUnusedParticle pool cursor).1 (spawnSmoke rand k))
      (FindUnusedParticle pool cursor).2

/-- The rain spawn loop `for (i = 0; i < newparticles_rain; i++)`, run `n`
times: each turn calls `FindUnusedParticle()`, which scans `ParticlesContainer`
(here `smoke`), and initialises the slot of that index in `RaindropsContainer`
(here `rain`). The result is the rain pool and `LastUsedParticle`. -/
def rainSpawnLoop (rand : Nat → Nat) (smoke : List Particle) :
    Nat → Nat → List Particle → Nat → List Particle × Nat
  | 0, _, rain, cursor => (rain, cursor)
  | n + 1, k, rain, cursor =>
    rainSpawnLoop rand smoke n (k + 6)
      (updateSlot rain (FindUnusedParticle smoke cursor).1 (spawnRain rand k))
      (FindUnusedParticle smoke cursor).2

/-! ## Simulation and buffer fill -/

/-- What a simulation loop leaves behind: the pool, the two staging buffers
(flat arrays, four entries per tuple) and the counter. -/
structure SimResult where
  pool : List Particle
  position_size_data : List ℚ
  color_data : List Nat
  count : Nat
deriving DecidableEq

/-- The four writes `g_particule_position_size_data[4*count + 0..3] = ...`. -/
def fillPositionSize (buf : List ℚ) (count : Nat) (p : Particle) : List ℚ :=
  (((buf.set (4 * count + 0) p.pos.x).set (4 * count + 1) p.pos.y).set
    (4 * count + 2) p.pos.z).set (4 * count + 3) p.size

/-- The four writes `g_particule_color_data[4*count + 0..3] = ...`. -/
def fillColor (buf : List Nat) (count : Nat) (p : Particle) : List Nat :=
  (((buf.set (4 * count + 0) p.r).set (4 * count + 1) p.g).set
    (4 * count + 2) p.b).set (4 * count + 3) p.a

/-- The physics of a particle that stays alive, after its life was decreased:
`p.speed += dir * (float)delta * 2.0f; p.pos += p.speed * (float)delta;
 p.cameradistance = glm::length2(p.pos - CameraPosition);` -/
def advance (dir : Vec3) (delta : ℚ) (CameraPosition : Vec3) (p : Particle) : Particle :=
  let p1 := { p with speed := p.speed.add ((dir.smul delta).smul 2) }
  let p2 := { p1 with pos := p1.pos.add (p1.speed.smul delta) }
  { p2 with cameradistance := (p2.pos.sub CameraPosition).length2 }

/-- The loop "Simulate all particles" over the slots still to visit, with the
buffers and the counter as they are on entry. `dir` is the vector of the
speed update: `(0,1,0)` for smoke and `(0,0,0)` for rain. -/
def simulate (dir : Vec3) (delta : ℚ) (CameraPosition : Vec3) :
    List Particle → List ℚ → List Nat → Nat → SimResult
  | [], pbuf, cbuf, count => ⟨[], pbuf, cbuf, count⟩
  | p :: rest, pbuf, cbuf, count =>
    if p.life > 0 then
      let p1 := { p with life := p.life - delta }
      if p1.life > 0 then
        let p2 := advance dir delta CameraPosition p1
        let out := simulate dir delta CameraPosition rest
          (fillPositionSize pbuf count p2) (fillColor cbuf count p2) (count + 1)
        { out with pool := p2 :: out.pool }
      else
        let p2 := { p1 with cameradistance := -1 }
        let out := simulate dir delta CameraPosition rest pbuf cbuf (count + 1)
        { out with pool := p2 :: out.pool }
    else
      let out := simulate dir delta CameraPosition rest pbuf cbuf count
      { out with pool := p :: out.pool }

/-- The smoke simulation loop, from `ParticlesCount = 0`. -/
def SimulateParticles (delta : ℚ) (CameraPosition : Vec3) (pool : List Particle)
    (pbuf : List ℚ) (cbuf : List Nat) : SimResult :=
  simulate ⟨0, 1, 0⟩ delta CameraPosition pool pbuf cbuf 0

/-- The rain simulation loop, from `RaindropsCount = 0`. -/
def SimulateRaindrops (delta : ℚ) (CameraPosition : Vec3) (pool : List Particle)
    (pbuf : List ℚ) (cbuf : List Nat) : SimResult :=
  simulate ⟨0, 0, 0⟩ delta CameraPosition pool pbuf cbuf 0

/-- What one turn of the simulation loop does to the slot it visits. -/
def integrate (dir : Vec3) (delta : ℚ) (CameraPosition : Vec3) (p : Particle) : Particle :=
  if p.life > 0 then
    if p.life - delta > 0 then
      advance dir delta CameraPosition { p with life := p.life - delta }
    else
      { p with life := p.life - delta, cameradistance := -1 }
  else p

/-! ## Depth sort -/

/-- Insertion of `p` into an ordered list, before the first element that `p`
precedes in the sense of `operator<`. -/
def orderedInsert (p : Particle) : List Particle → List Particle
  | [] => [p]
  | q :: rest => if Particle.lt p q then p :: q :: rest else q :: orderedInsert p rest

/-- The library call `std::sort(first, last)` with the default comparison
`operator<`, as an insertion sort that consults only `Particle.lt`. The C++
standard leaves the relative order of equivalent elements open. -/
def std_sort : List Particle → List Particle
  | [] => []
  | p :: rest => orderedInsert p (std_sort rest)

/-- `SortParticles()`: sorts `ParticlesContainer[0 .. MaxParticles)`. -/
def SortParticles (pool : List Particle) : List Particle := std_sort pool

/-- `SortRaindrops()`: sorts `RaindropsContainer[0 .. MaxParticles)`. -/
def SortRaindrops (pool : List Particle) : List Particle := std_sort pool

/-! ## One frame -/

/-- The globals that persist from frame to frame. -/
structure State where
  ParticlesContainer : List Particle
  RaindropsContainer : List Particle
  LastUsedParticle : Nat
  g_particule_position_size_data : List ℚ
  g_particule_color_data : List Nat
  g_particule_position_size_data_rain : List ℚ
  g_particule_color_data_rain : List Nat

/-- What a frame takes from outside: the frame time, the viewer position and
the results of the calls of `rand()`. -/
structure FrameInput where
  delta : ℚ
  CameraPosition : Vec3
  rand : Nat → Nat

/-- A slot as both initialisation loops leave it: `life = -1`,
`cameradistance = -1`, the other fields zero (static storage). -/
def freshSlot : Particle :=
  { pos := ⟨0, 0, 0⟩, speed := ⟨0, 0, 0⟩, r := 0, g := 0, b := 0, a := 0,
    size := 0, angle := 0, weight := 0, life := -1, cameradistance := -1 }

/-- The state on entry of the main loop for a capacity `n`; the staging
buffers come from `new[]`, their content is whatever `pbuf`, `cbuf`, `pbufRain`
and `cbufRain` hold. -/
def initState (n : Nat) (pbuf : List ℚ) (cbuf : List Nat) (pbufRain : List ℚ)
    (cbufRain : List Nat) : State :=
  { ParticlesContainer := List.replicate n freshSlot
    RaindropsContainer := List.replicate n freshSlot
    LastUsedParticle := LastUsedParticle_init
    g_particule_position_size_data := pbuf
    g_particule_color_data := cbuf
    g_particule_position_size_data_rain := pbufRain
    g_particule_color_data_rain := cbufRain }

/-- The number of turns of `for (int i = 0; i < n; i++)`. -/
def turns (n : Int) : Nat := n.toNat

/-- The smoke pool after the spawn loop of a frame, with the cursor. -/
def smokeSpawned (s : State) (inp : FrameInput) : List Particle × Nat :=
  smokeSpawnLoop inp.rand (turns (newparticles inp.delta)) 0
    s.ParticlesContainer s.LastUsedParticle

/-- The smoke simulation loop of a frame, run on the spawned pool. -/
def smokeSimulated (s : State) (inp : FrameInput) : SimResult :=
  SimulateParticles inp.delta inp.CameraPosition (smokeSpawned s inp).1
    s.g_particule_position_size_data s.g_particule_color_data

/-- The rain pool after the spawn loop of a frame, with the cursor. The
allocator scans the smoke pool as `SortParticles` left it. -/
def rainSpawned (s : State) (inp : FrameInput) : List Particle × Nat :=
  rainSpawnLoop inp.rand (SortParticles (smokeSimulated s inp).pool)
    (turns (newparticles_rain inp.delta)) (8 * turns (newparticles inp.delta))
    s.RaindropsContainer (smokeSpawned s inp).2

/-- The rain simulation loop of a frame, run on the spawned pool. -/
def rainSimulated (s : State) (inp : FrameInput) : SimResult :=
  SimulateRaindrops inp.delta inp.CameraPosition (rainSpawned s inp).1
    s.g_particule_position_size_data_rain s.g_particule_color_data_rain

/-- The globals after one turn of the main loop. -/
def frame (s : State) (inp : FrameInput) : State :=
  { ParticlesContainer := SortParticles (smokeSimulated s inp).pool
    RaindropsContainer := SortRaindrops (rainSimulated s inp).pool
    LastUsedParticle := (rainSpawned s inp).2
    g_particule_position_size_data := (smokeSimulated s inp).position_size_data
    g_particule_color_data := (smokeSimulated s inp).color_data
    g_particule_position_size_data_rain := (rainSimulated s inp).position_size_data
    g_particule_color_data_rain := (rainSimulated s inp).color_data }

/-- The `ParticlesCount` of a frame: the number of tuples uploaded from each
smoke buffer and the instance count of the smoke draw. -/
def ParticlesCount (s : State) (inp : FrameInput) : Nat := (smokeSimulated s inp).count

/-- The `RaindropsCount` of a frame. -/
def RaindropsCount (s : State) (inp : FrameInput) : Nat := (rainSimulated s inp).count

/-- The tuples `glBufferSubData` uploads from a position/size buffer: the
first `4 * count` entries. -/
def uploaded {α : Type} (buf : List α) (count : Nat) : List α := buf.take (4 * count)

/-- The state after a sequence of frames. -/
def runFrames (s : State) : List FrameInput → State
  | [] => s
  | inp :: rest => runFrames (frame s inp) rest

/-- The number of live slots (`life > 0`) of a pool. -/
def liveCount (pool : List Particle) : Nat := pool.countP (fun p => decide (p.life > 0))

/-! ## Example data -/

/-- A live smoke particle at `(0,0,1)` whose stored distance is `16` (the
viewer was at `(0,0,5)` when it was last updated). -/
def nearParticle : Particle :=
  { pos := ⟨0, 0, 1⟩, speed := ⟨0, -1, 0⟩, r := 10, g := 10, b := 10, a := 10,
    size := 1 / 2, angle := 0, weight := 0, life := 1, cameradistance := 16 }

/-- A live smoke particle at `(0,0,3)` whose stored distance is `4`. -/
def farParticle : Particle :=
  { pos := ⟨0, 0, 3⟩, speed := ⟨0, -1, 0⟩, r := 20, g := 20, b := 20, a := 20,
    size := 1 / 4, angle := 0, weight := 0, life := 1, cameradistance := 4 }

/-- A pool of three slots with consistent sentinels: a dead slot, then two
live ones at squared distances `4` and `9`. -/
def examplePool : List Particle :=
  [freshSlot, { freshSlot with life := 1, cameradistance := 4 },
    { freshSlot with life := 1, cameradistance := 9 }]

/-- The number of slots the allocator takes as unused (`life < 0`). -/
def deadCount (pool : List Particle) : Nat := pool.countP (fun p => decide (p.life < 0))

/-- The indices `particleIndex` that the turns of the smoke spawn loop obtain
from `FindUnusedParticle()`, in order. Same recursion as `smokeSpawnLoop`. -/
def smokeSpawnSlots (rand : Nat → Nat) : Nat → Nat → List Particle → Nat → List Nat
  | 0, _, _, _ => []
  | n + 1, k, pool, cursor =>
    (FindUnusedParticle pool cursor).1 ::
      smokeSpawnSlots rand n (k + 8)
        (updateSlot pool (FindUnusedParticle pool cursor).1 (spawnSmoke rand k))
        (FindUnusedParticle pool cursor).2

/-- A raindrop half a second after a spawn with all `rand()` results `0`,
seen from the origin. -/
def liveRaindrop : Particle :=
  { pos := ⟨-5, 5, -35 / 2⟩, speed := ⟨0, -10, 1⟩, r := 26, g := 35, b := 126, a := 50,
    size := 1 / 10, angle := 0, weight := 0, life := 11 / 2, cameradistance := 1425 / 4 }

/-- A frame of one microsecond seen from the origin, every `rand()` result
`0`: no smoke particle and one raindrop are spawned. -/
def microFrame : FrameInput :=
  { delta := 1 / 1000000, CameraPosition := ⟨0, 0, 0⟩, rand := fun _ => 0 }

/-- A frame of zero duration: nothing is spawned. -/
def stillFrame : FrameInput :=
  { delta := 0, CameraPosition := ⟨0, 0, 0⟩, rand := fun _ => 0 }

/-- Two slots per pool, no smoke particle alive, one raindrop alive in rain
slot 0, rain slot 1 free. -/
def rainOnlyState : State :=
  { ParticlesContainer := [freshSlot, freshSlot]
    RaindropsContainer := [liveRaindrop, freshSlot]
    LastUsedParticle := 0
    g_particule_position_size_data := List.replicate 8 0
    g_particule_color_data := List.replicate 8 0
    g_particule_position_size_data_rain := List.replicate 8 0
    g_particule_color_data_rain := List.replicate 8 0 }

/-- The state `rainOnlyState` with a live smoke particle in smoke slot 0. -/
def smokeAndRainState : State :=
  { rainOnlyState with ParticlesContainer := [farParticle, freshSlot] }

/-! ## Facts about the scan -/

theorem scanUnused_some {pool : List Particle} :
    ∀ (fuel i j : Nat), scanUnused pool i fuel = some j →
      i ≤ j ∧ j < i + fuel ∧ isUnused pool j = true ∧
        ∀ k, i ≤ k → k < j → isUnused pool k = false := by
  intro fuel
  induction fuel with
  | zero => intro i j h; simp [scanUnused] at h
  | succ n ih =>
    intro i j h
    unfold scanUnused at h
    by_cases hi : isUnused pool i = true
    · rw [if_pos hi] at h
      have hij : i = j := by simpa using h
      subst hij
      exact ⟨le_refl _, by omega, hi, fun k h1 h2 => by omega⟩
    · rw [if_neg hi] at h
      obtain ⟨h1, h2, h3, h4⟩ := ih (i + 1) j h
      refine ⟨by omega, by omega, h3, ?_⟩
      intro k hk1 hk2
      by_cases hki : k = i
      · subst hki; simpa using hi
      · exact h4 k (by omega) hk2

theorem scanUnused_none {pool : List Particle} :
    ∀ (fuel i : Nat), scanUnused pool i fuel = none →
      ∀ k, i ≤ k → k < i + fuel → isUnused pool k = false := by
  intro fuel
  induction fuel with
  | zero => intro i _ k h1 h2; omega
  | succ n ih =>
    intro i h k hk1 hk2
    unfold scanUnused at h
    by_cases hi : isUnused pool i = true
    · rw [if_pos hi] at h; simp at h
    · rw [if_neg hi] at h
      by_cases hki : k = i
      · subst hki; simpa using hi
      · exact ih (i + 1) h k (by omega) (by omega)

theorem isUnused_lt_length {pool : List Particle} {i : Nat}
    (h : isUnused pool i = true) : i < pool.length := by
  unfold isUnused at h
  by_contra hlt
  have : pool[i]? = none := List.getElem?_eq_none (by omega)
  rw [this] at h
  simp at h

theorem isUnused_iff {pool : List Particle} {i : Nat} :
    isUnused pool i = true ↔ ∃ p, pool[i]? = some p ∧ p.life < 0 := by
  unfold isUnused
  cases h : pool[i]? with
  | none => simp
  | some p => simp

/-- The three outcomes of `FindUnusedParticle`, read off its two loops. -/
theorem FindUnusedParticle_cases (pool : List Particle) (c : Nat) :
    (∃ j, FindUnusedParticle pool c = (j, j) ∧ c ≤ j ∧ j < c + (pool.length - c) ∧
        isUnused pool j = true ∧ ∀ k, c ≤ k → k < j → isUnused pool k = false) ∨
    (∃ j, FindUnusedParticle pool c = (j, j) ∧ j < c ∧ isUnused pool j = true ∧
        (∀ k, c ≤ k → k < c + (pool.length - c) → isUnused pool k = false) ∧
        ∀ k, k < j → isUnused pool k = false) ∨
    (FindUnusedParticle pool c = (0, c) ∧
        (∀ k, c ≤ k → k < c + (pool.length - c) → isUnused pool k = false) ∧
        ∀ k, k < c → isUnused pool k = false) := by
  unfold FindUnusedParticle
  cases h1 : scanUnused pool c (pool.length - c) with
  | some j =>
    left
    obtain ⟨a1, a2, a3, a4⟩ := scanUnused_some _ _ _ h1
    exact ⟨j, rfl, a1, a2, a3, a4⟩
  | none =>
    right
    have n1 := scanUnused_none _ _ h1
    cases h2 : scanUnused pool 0 c with
    | some j =>
      left
      obtain ⟨_, a2, a3, a4⟩ := scanUnused_some _ _ _ h2
      exact ⟨j, rfl, by omega, a3, n1, fun k hk => a4 k (Nat.zero_le _) hk⟩
    | none =>
      right
      have n2 := scanUnused_none _ _ h2
      exact ⟨rfl, n1, fun k hk => n2 k (Nat.zero_le _) (by omega)⟩

/-- When no slot of the pool is unused, the allocator answers `0` and keeps
the cursor. -/
theorem FindUnusedParticle_full (pool : List Particle) (c : Nat)
    (hnone : ∀ k, isUnused pool k = false) : FindUnusedParticle pool c = (0, c) := by
  rcases FindUnusedParticle_cases pool c with ⟨j, _, _, _, hj, _⟩ | ⟨j, _, _, hj, _⟩ | ⟨h, _⟩
  · rw [hnone j] at hj; cases hj
  · rw [hnone j] at hj; cases hj
  · exact h

/-! ## The allocator: claims C1 to C3 -/

/-- C1: for every pool and cursor, if some slot has `life < 0` then
`FindUnusedParticle` returns the index of a slot whose `life < 0`, and if every
slot has `life > 0` it returns index `0`. (The proof does not need the cursor
to be in range.) -/
theorem FindUnusedParticle_dead_or_zero (pool : List Particle) (c : Nat) :
    ((∃ (i : Nat) (p : Particle), pool[i]? = some p ∧ p.life < 0) →
        ∃ q, pool[(FindUnusedParticle pool c).1]? = some q ∧ q.life < 0) ∧
    ((∀ p ∈ pool, p.life > 0) → (FindUnusedParticle pool c).1 = 0) := by
  constructor
  · rintro ⟨i, p, hip, hp⟩
    have hi : isUnused pool i = true := isUnused_iff.mpr ⟨p, hip, hp⟩
    have hlen : i < pool.length := isUnused_lt_length hi
    rcases FindUnusedParticle_cases pool c with
      ⟨j, hj, _, _, hu, _⟩ | ⟨j, hj, _, hu, _⟩ | ⟨_, n1, n2⟩
    · rw [hj]; exact isUnused_iff.mp hu
    · rw [hj]; exact isUnused_iff.mp hu
    · exfalso
      by_cases hic : i < c
      · rw [n2 i hic] at hi; cases hi
      · rw [n1 i (by omega) (by omega)] at hi; cases hi
  · intro hall
    have hnone : ∀ k, isUnused pool k = false := by
      intro k
      cases hk : isUnused pool k with
      | false => rfl
      | true =>
        obtain ⟨p, hp, hlt⟩ := isUnused_iff.mp hk
        have hmem : p ∈ pool := List.getElem?_mem hp
        have := hall p hmem
        exact absurd hlt (not_lt.mpr (le_of_lt this))
    rw [FindUnusedParticle_full pool c hnone]

/-- A pool with a live slot and a dead one, and a pool of two live slots. -/
theorem FindUnusedParticle_dead_or_zero_witness :
    (∃ q, [{ freshSlot with life := 1 }, freshSlot][(FindUnusedParticle
        [{ freshSlot with life := 1 }, freshSlot] 0).1]? = some q ∧ q.life < 0) ∧
    (FindUnusedParticle [{ freshSlot with life := 1 }, { freshSlot with life := 2 }] 1).1 = 0 :=
  ⟨(FindUnusedParticle_dead_or_zero [{ freshSlot with life := 1 }, freshSlot] 0).1
      ⟨1, freshSlot, by simp, by norm_num [freshSlot]⟩,
   (FindUnusedParticle_dead_or_zero
      [{ freshSlot with life := 1 }, { freshSlot with life := 2 }] 1).2
      (by intro p hp; simp at hp; rcases hp with rfl | rfl <;> norm_num)⟩

/-- C2: with the cursor `c` in range, when some slot has `life < 0` the
allocator returns the first such slot in the cyclic order `c, c+1, ...,
MaxParticles-1, 0, ..., c-1` (it is the slot `(c + k) % MaxParticles` and none
of the `k` slots before it in that order has `life < 0`) and the cursor becomes
the returned index; when no slot has `life < 0` the cursor is unchanged. -/
theorem FindUnusedParticle_first_cyclic (pool : List Particle) (c : Nat)
    (hc : c < pool.length) :
    ((∃ i, isUnused pool i = true) →
        ∃ k, k < pool.length ∧
          (FindUnusedParticle pool c).1 = (c + k) % pool.length ∧
          isUnused pool (FindUnusedParticle pool c).1 = true ∧
          (∀ m, m < k → isUnused pool ((c + m) % pool.length) = false) ∧
          (FindUnusedParticle pool c).2 = (FindUnusedParticle pool c).1) ∧
    ((∀ i, isUnused pool i = false) → (FindUnusedParticle pool c).2 = c) := by
  constructor
  · rintro ⟨i, hi⟩
    have hlen : i < pool.length := isUnused_lt_length hi
    rcases FindUnusedParticle_cases pool c with
      ⟨j, hj, h1, h2, hu, hbefore⟩ | ⟨j, hj, hjc, hu, n1, hbefore⟩ | ⟨_, n1, n2⟩
    · refine ⟨j - c, by omega, ?_, ?_, ?_, ?_⟩
      · rw [hj]
        show j = (c + (j - c)) % pool.length
        rw [Nat.add_sub_cancel' h1, Nat.mod_eq_of_lt (by omega)]
      · rw [hj]; exact hu
      · intro m hm
        rw [Nat.mod_eq_of_lt (by omega)]
        exact hbefore (c + m) (by omega) (by omega)
      · rw [hj]
    · refine ⟨pool.length - c + j, by omega, ?_, ?_, ?_, ?_⟩
      · rw [hj]
        show j = (c + (pool.length - c + j)) % pool.length
        have : c + (pool.length - c + j) = j + pool.length := by omega
        rw [this, Nat.add_mod_right, Nat.mod_eq_of_lt (by omega)]
      · rw [hj]; exact hu
      · intro m hm
        by_cases hm2 : c + m < pool.length
        · rw [Nat.mod_eq_of_lt hm2]
          exact n1 (c + m) (by omega) (by omega)
        · have : c + m = (c + m - pool.length) + pool.length := by omega
          rw [this, Nat.add_mod_right, Nat.mod_eq_of_lt (by omega)]
          exact hbefore _ (by omega)
      · rw [hj]
    · exfalso
      by_cases hic : i < c
      · rw [n2 i hic] at hi; cases hi
      · rw [n1 i (by omega) (by omega)] at hi; cases hi
  · intro hnone
    rw [FindUnusedParticle_full pool c hnone]

/-- The cursor at slot 1 of a pool whose only dead slot is slot 0: the scan
wraps around. -/
theorem FindUnusedParticle_first_cyclic_witness :
    (1 < [freshSlot, { freshSlot with life := 1 }].length) ∧
    (FindUnusedParticle [freshSlot, { freshSlot with life := 1 }] 1).2 =
      (FindUnusedParticle [freshSlot, { freshSlot with life := 1 }] 1).1 :=
  ⟨by simp,
   by
    obtain ⟨k, _, _, _, _, h⟩ :=
      (FindUnusedParticle_first_cyclic [freshSlot, { freshSlot with life := 1 }] 1
        (by simp)).1 ⟨0, by simp [isUnused, freshSlot]⟩
    exact h⟩

/-- C3: the cursor is `0` initially, which is below `MaxParticles`, and a call
of `FindUnusedParticle` with the cursor in `[0, MaxParticles)` returns an index
in `[0, MaxParticles)` and leaves the cursor in `[0, MaxParticles)`, whatever
the pool holds: the search is a total function and always yields a slot. -/
theorem FindUnusedParticle_in_range (pool : List Particle) (c : Nat)
    (hc : c < pool.length) :
    LastUsedParticle_init = 0 ∧ LastUsedParticle_init < MaxParticles ∧
    (FindUnusedParticle pool c).1 < pool.length ∧
    (FindUnusedParticle pool c).2 < pool.length := by
  refine ⟨rfl, by decide, ?_⟩
  rcases FindUnusedParticle_cases pool c with
    ⟨j, hj, _, _, hu, _⟩ | ⟨j, hj, _, hu, _⟩ | ⟨h, _⟩
  · rw [hj]; exact ⟨isUnused_lt_length hu, isUnused_lt_length hu⟩
  · rw [hj]; exact ⟨isUnused_lt_length hu, isUnused_lt_length hu⟩
  · rw [h]; exact ⟨by omega, hc⟩

/-- A saturated pool of two slots, cursor at slot 1. -/
theorem FindUnusedParticle_in_range_witness :
    1 < [{ freshSlot with life := 1 }, { freshSlot with life := 1 }].length ∧
    (FindUnusedParticle [{ freshSlot with life := 1 }, { freshSlot with life := 1 }] 1).1 <
      [{ freshSlot with life := 1 }, { freshSlot with life := 1 }].length :=
  ⟨by simp,
   (FindUnusedParticle_in_range [{ freshSlot with life := 1 }, { freshSlot with life := 1 }] 1
      (by simp)).2.2.1⟩

/-! ## Emission: claim C4 -/

theorem toInt_of_nonneg {x : ℚ} (h : 0 ≤ x) : toInt x = ⌊x⌋ := by
  unfold toInt
  rw [if_pos h]

theorem toInt_smoke_ceiling : toInt (f0_016 * 10000) = 160 := by
  rw [toInt_of_nonneg (by norm_num [f0_016]), Int.floor_eq_iff]
  constructor <;> norm_num [f0_016]

theorem toInt_rain_ceiling : toInt (f0_016 * 1000000) = 16000 := by
  rw [toInt_of_nonneg (by norm_num [f0_016]), Int.floor_eq_iff]
  constructor <;> norm_num [f0_016]

theorem simulate_pool (dir : Vec3) (delta : ℚ) (cam : Vec3) :
    ∀ (pool : List Particle) (pbuf : List ℚ) (cbuf : List Nat) (count : Nat),
      (simulate dir delta cam pool pbuf cbuf count).pool =
        pool.map (integrate dir delta cam) := by
  intro pool
  induction pool with
  | nil => intro pbuf cbuf count; simp [simulate]
  | cons p rest ih =>
    intro pbuf cbuf count
    unfold simulate
    by_cases h1 : p.life > 0
    · by_cases h2 : p.life - delta > 0
      · simp only [h1, h2, if_true, List.map_cons, ih, integrate]
      · simp only [h1, h2, if_true, if_false, List.map_cons, ih, integrate]
    · simp only [h1, if_false, List.map_cons, ih, integrate]

theorem simulate_pool_getElem? (dir : Vec3) (delta : ℚ) (cam : Vec3)
    (pool : List Particle) (pbuf : List ℚ) (cbuf : List Nat) (count i : Nat) :
    (simulate dir delta cam pool pbuf cbuf count).pool[i]? =
      (pool[i]?).map (integrate dir delta cam) := by
  rw [simulate_pool, List.getElem?_map]

theorem integrate_live (dir : Vec3) (delta : ℚ) (cam : Vec3) (p : Particle)
    (hlive : p.life > 0) :
    (integrate dir delta cam p).life = p.life - delta ∧
    ((integrate dir delta cam p).life > 0 →
      (integrate dir delta cam p).speed = p.speed.add ((dir.smul delta).smul 2) ∧
      (integrate dir delta cam p).pos =
        p.pos.add ((integrate dir delta cam p).speed.smul delta) ∧
      (integrate dir delta cam p).cameradistance =
        ((integrate dir delta cam p).pos.sub cam).length2) ∧
    ((integrate dir delta cam p).life ≤ 0 →
      (integrate dir delta cam p).cameradistance = -1 ∧
      (integrate dir delta cam p).pos = p.pos ∧
      (integrate dir delta cam p).speed = p.speed) := by
  unfold integrate
  rw [if_pos hlive]
  by_cases h2 : p.life - delta > 0
  · rw [if_pos h2]
    refine ⟨rfl, fun _ => ⟨rfl, rfl, rfl⟩, fun h => ?_⟩
    exact absurd h (not_le.mpr h2)
  · rw [if_neg h2]
    refine ⟨rfl, fun h => absurd h h2, fun _ => ⟨rfl, rfl, rfl⟩⟩

theorem smoke_acceleration (delta : ℚ) :
    ((⟨0, 1, 0⟩ : Vec3).smul delta).smul 2 = (⟨0, 2, 0⟩ : Vec3).smul delta := by
  simp only [Vec3.smul, Vec3.mk.injEq]
  refine ⟨by ring, by ring, by ring⟩

theorem rain_acceleration (delta : ℚ) :
    ((⟨0, 0, 0⟩ : Vec3).smul delta).smul 2 = (⟨0, 0, 0⟩ : Vec3).smul delta := by
  simp only [Vec3.smul, Vec3.mk.injEq]
  refine ⟨by ring, by ring, by ring⟩

/-- C5: for every slot `i` that is live before the integration pass
(`life > 0`), the pass leaves in slot `i` a particle `q` with
`q.life = life - delta`; if `q.life > 0` then `q.speed = speed +
acceleration * delta` with acceleration `(0,2,0)` for smoke and `(0,0,0)` for
rain, `q.pos = pos + q.speed * delta` (the updated speed) and
`q.cameradistance` is the squared norm of `q.pos - CameraPosition`; if
`q.life <= 0` then `q.cameradistance = -1` and `pos`, `speed` are unchanged. -/
theorem integration_pass (delta : ℚ) (cam : Vec3) (pool : List Particle)
    (pbuf : List ℚ) (cbuf : List Nat) (i : Nat) (p : Particle)
    (hp : pool[i]? = some p) (hlive : p.life > 0) :
    (∃ q, (SimulateParticles delta cam pool pbuf cbuf).pool[i]? = some q ∧
      q.life = p.life - delta ∧
      (q.life > 0 → q.speed = p.speed.add ((⟨0, 2, 0⟩ : Vec3).smul delta) ∧
        q.pos = p.pos.add (q.speed.smul delta) ∧
        q.cameradistance = (q.pos.sub cam).length2) ∧
      (q.life ≤ 0 → q.cameradistance = -1 ∧ q.pos = p.pos ∧ q.speed = p.speed)) ∧
    (∃ q, (SimulateRaindrops delta cam pool pbuf cbuf).pool[i]? = some q ∧
      q.life = p.life - delta ∧
      (q.life > 0 → q.speed = p.speed.add ((⟨0, 0, 0⟩ : Vec3).smul delta) ∧
        q.pos = p.pos.add (q.speed.smul delta) ∧
        q.cameradistance = (q.pos.sub cam).length2) ∧
      (q.life ≤ 0 → q.cameradistance = -1 ∧ q.pos = p.pos ∧ q.speed = p.speed)) := by
  constructor
  · refine ⟨integrate ⟨0, 1, 0⟩ delta cam p, ?_, ?_⟩
    · unfold SimulateParticles
      rw [simulate_pool_getElem?, hp]; rfl
    · have h := integrate_live ⟨0, 1, 0⟩ delta cam p hlive
      rw [smoke_acceleration] at h
      exact h
  · refine ⟨integrate ⟨0, 0, 0⟩ delta cam p, ?_, ?_⟩
    · unfold SimulateRaindrops
      rw [simulate_pool_getElem?, hp]; rfl
    · have h := integrate_live ⟨0, 0, 0⟩ delta cam p hlive
      rw [rain_acceleration] at h
      exact h

/-- A pool of one freshly spawned particle, a frame of half a second. -/
theorem integration_pass_witness :
    ([{ freshSlot with life := 1 }][0]? = some { freshSlot with life := 1 }) ∧
    ({ freshSlot with life := 1 } : Particle).life > 0 ∧
    ∃ q, (SimulateParticles (1 / 2) ⟨0, 0, 0⟩ [{ freshSlot with life := 1 }] [] []).pool[0]?
        = some q ∧
      q.life = ({ freshSlot with life := 1 } : Particle).life - 1 / 2 :=
  ⟨rfl, by norm_num,
    let ⟨q, h1, h2, _⟩ := (integration_pass (1 / 2) ⟨0, 0, 0⟩ [{ freshSlot with life := 1 }]
      [] [] 0 { freshSlot with life := 1 } rfl (by norm_num)).1
    ⟨q, h1, h2⟩⟩

/-! ## The counter of the simulation loop: claim C6 -/

/-- The counter grows by one for every slot that is live on entry of the
loop, whether or not it survives the turn. -/
theorem simulate_count (dir : Vec3) (delta : ℚ) (cam : Vec3) :
    ∀ (pool : List Particle) (pbuf : List ℚ) (cbuf : List Nat) (count : Nat),
      (simulate dir delta cam pool pbuf cbuf count).count = count + liveCount pool := by
  intro pool
  induction pool with
  | nil => intro pbuf cbuf count; simp [simulate, liveCount]
  | cons p rest ih =>
    intro pbuf cbuf count
    unfold simulate
    by_cases h1 : p.life > 0
    · have hc : liveCount (p :: rest) = liveCount rest + 1 := by
        simp [liveCount, List.countP_cons, h1]
      by_cases h2 : p.life - delta > 0
      · simp only [h1, h2, if_true, ih, hc]; omega
      · simp only [h1, h2, if_true, if_false, ih, hc]; omega
    · have hc : liveCount (p :: rest) = liveCount rest := by
        simp [liveCount, List.countP_cons, h1]
      simp only [h1, if_false, ih, hc]

/-- C6, the code at a pool of one particle with `life = 0.3` and
`delta = 0.5`: the simulation loop leaves the counter at `1`, while no slot of
the pool has `life > 0` after the pass. -/
theorem count_at_expiry :
    (SimulateParticles (1 / 2) ⟨0, 0, 0⟩ [{ freshSlot with life := 3 / 10 }] [0, 0, 0, 0]
      [0, 0, 0, 0]).count = 1 ∧
    liveCount (SimulateParticles (1 / 2) ⟨0, 0, 0⟩ [{ freshSlot with life := 3 / 10 }]
      [0, 0, 0, 0] [0, 0, 0, 0]).pool = 0 := by
  constructor
  · simp [SimulateParticles, simulate, freshSlot]
    norm_num
  · simp [SimulateParticles, simulate, freshSlot, liveCount]
    norm_num

/-! ## The packed tuples: claim C7 -/

/-- C7, the code at the pool `[nearParticle, farParticle]` with the viewer at
the origin and `delta = 0.5`: the loop packs the particle at squared distance
`1` as tuple 0 and the one at squared distance `9` as tuple 1, in slot order,
whereas `SortParticles`, which runs afterwards, puts the particle at distance
`9` in slot 0 of the pool. -/
theorem packed_before_sort :
    (SimulateParticles (1 / 2) ⟨0, 0, 0⟩ [nearParticle, farParticle]
      (List.replicate 8 0) (List.replicate 8 0)).count = 2 ∧
    uploaded (SimulateParticles (1 / 2) ⟨0, 0, 0⟩ [nearParticle, farParticle]
      (List.replicate 8 0) (List.replicate 8 0)).position_size_data 2 =
      [0, 0, 1, 1 / 2, 0, 0, 3, 1 / 4] ∧
    uploaded (SimulateParticles (1 / 2) ⟨0, 0, 0⟩ [nearParticle, farParticle]
      (List.replicate 8 0) (List.replicate 8 0)).color_data 2 =
      [10, 10, 10, 10, 20, 20, 20, 20] ∧
    (SortParticles (SimulateParticles (1 / 2) ⟨0, 0, 0⟩ [nearParticle, farParticle]
      (List.replicate 8 0) (List.replicate 8 0)).pool).map
        (fun p => (p.pos, p.size, p.r, p.cameradistance)) =
      [(⟨0, 0, 3⟩, 1 / 4, 20, 9), (⟨0, 0, 1⟩, 1 / 2, 10, 1)] := by
  have hsim : SimulateParticles (1 / 2) ⟨0, 0, 0⟩ [nearParticle, farParticle]
      (List.replicate 8 0) (List.replicate 8 0) =
      ⟨[{ nearParticle with life := 1 / 2, speed := ⟨0, 0, 0⟩, cameradistance := 1 },
        { farParticle with life := 1 / 2, speed := ⟨0, 0, 0⟩, cameradistance := 9 }],
       [0, 0, 1, 1 / 2, 0, 0, 3, 1 / 4], [10, 10, 10, 10, 20, 20, 20, 20], 2⟩ := by
    simp [SimulateParticles, simulate, nearParticle, farParticle, advance, fillPositionSize,
      fillColor, Vec3.add, Vec3.sub, Vec3.smul, Vec3.length2, List.replicate]
    norm_num
  rw [hsim]
  refine ⟨rfl, ?_, ?_, ?_⟩
  · simp [uploaded]
  · simp [uploaded]
  · simp [SortParticles, std_sort, orderedInsert, Particle.lt, nearParticle, farParticle]


/-! ## The depth sort: claim C8 -/

theorem orderedInsert_perm (p : Particle) :
    ∀ l : List Particle, (orderedInsert p l).Perm (p :: l) := by
  intro l
  induction l with
  | nil => exact List.Perm.refl _
  | cons q rest ih =>
    unfold orderedInsert
    by_cases h : Particle.lt p q = true
    · rw [if_pos h]
    · rw [if_neg h]
      exact ((List.Perm.cons q ih).trans (List.Perm.swap p q rest))

theorem std_sort_perm : ∀ l : List Particle, (std_sort l).Perm l := by
  intro l
  induction l with
  | nil => exact List.Perm.refl _
  | cons p rest ih =>
    unfold std_sort
    exact (orderedInsert_perm p (std_sort rest)).trans (List.Perm.cons p ih)

theorem orderedInsert_ordered (p : Particle) :
    ∀ l : List Particle,
      l.Pairwise (fun a b => a.cameradistance ≥ b.cameradistance) →
      (orderedInsert p l).Pairwise (fun a b => a.cameradistance ≥ b.cameradistance) := by
  intro l
  induction l with
  | nil => intro _; simp [orderedInsert]
  | cons q rest ih =>
    intro hl
    obtain ⟨hq, hrest⟩ := List.pairwise_cons.mp hl
    unfold orderedInsert
    by_cases h : Particle.lt p q = true
    · rw [if_pos h]
      have hpq : p.cameradistance > q.cameradistance := by
        simpa [Particle.lt] using h
      refine List.pairwise_cons.mpr ⟨?_, hl⟩
      intro b hb
      rcases List.mem_cons.mp hb with rfl | hb
      · exact le_of_lt hpq
      · exact le_trans (hq b hb) (le_of_lt hpq)
    · rw [if_neg h]
      have hpq : p.cameradistance ≤ q.cameradistance := by
        simpa [Particle.lt] using h
      refine List.pairwise_cons.mpr ⟨?_, ih hrest⟩
      intro b hb
      have hb2 : b ∈ p :: rest := (orderedInsert_perm p rest).mem_iff.mp hb
      rcases List.mem_cons.mp hb2 with rfl | hb2
      · exact hpq
      · exact hq b hb2

theorem std_sort_ordered :
    ∀ l : List Particle,
      (std_sort l).Pairwise (fun a b => a.cameradistance ≥ b.cameradistance) := by
  intro l
  induction l with
  | nil => simp [std_sort]
  | cons p rest ih =>
    unfold std_sort
    exact orderedInsert_ordered p _ ih

/-- What any ordered rearrangement of a pool with consistent sentinels looks
like: adjacent distances do not increase and no dead slot precedes a live
one. -/
theorem ordered_pool_shape (pool sorted : List Particle)
    (hperm : sorted.Perm pool)
    (hord : sorted.Pairwise (fun a b => a.cameradistance ≥ b.cameradistance))
    (hinv : ∀ p ∈ pool, (p.life ≤ 0 → p.cameradistance = -1) ∧
      (p.life > 0 → p.cameradistance ≥ 0)) :
    (∀ (i : Nat) (a b : Particle), sorted[i]? = some a → sorted[i + 1]? = some b →
      a.cameradistance ≥ b.cameradistance) ∧
    (∀ (i j : Nat) (a b : Particle), sorted[i]? = some a → sorted[j]? = some b →
      a.life ≤ 0 → b.life > 0 → j < i) := by
  have key : ∀ (i j : Nat) (a b : Particle), sorted[i]? = some a → sorted[j]? = some b →
      i < j → a.cameradistance ≥ b.cameradistance := by
    intro i j a b ha hb hij
    obtain ⟨hi, hia⟩ := List.getElem?_eq_some_iff.mp ha
    obtain ⟨hj, hjb⟩ := List.getElem?_eq_some_iff.mp hb
    have := List.pairwise_iff_getElem.mp hord i j hi hj hij
    rw [hia, hjb] at this
    exact this
  refine ⟨fun i a b ha hb => key i (i + 1) a b ha hb (Nat.lt_succ_self i), ?_⟩
  intro i j a b ha hb hdead hlive
  by_contra hnot
  have hij : i ≤ j := by omega
  rcases Nat.lt_or_eq_of_le hij with hlt | heq
  · have hge := key i j a b ha hb hlt
    have hamem : a ∈ pool := hperm.mem_iff.mp (List.getElem?_mem ha)
    have hbmem : b ∈ pool := hperm.mem_iff.mp (List.getElem?_mem hb)
    have h1 := (hinv a hamem).1 hdead
    have h2 := (hinv b hbmem).2 hlive
    rw [h1] at hge
    linarith
  · subst heq
    rw [ha] at hb
    have hab : a = b := by simpa using hb
    subst hab
    exact absurd hlive (not_lt.mpr hdead)

/-- C8: on a pool that satisfies the sentinel invariant (`cameradistance = -1`
on the slots with `life <= 0`, `cameradistance >= 0` on the slots with
`life > 0`), after `SortParticles` and after `SortRaindrops` every adjacent
pair of slots `(i, i+1)` has `cameradistance[i] >= cameradistance[i+1]`, and
every non-live slot is at a higher index than every live slot. -/
theorem sort_orders_pool (pool : List Particle)
    (hinv : ∀ p ∈ pool, (p.life ≤ 0 → p.cameradistance = -1) ∧
      (p.life > 0 → p.cameradistance ≥ 0)) :
    ((∀ (i : Nat) (a b : Particle), (SortParticles pool)[i]? = some a →
        (SortParticles pool)[i + 1]? = some b → a.cameradistance ≥ b.cameradistance) ∧
      (∀ (i j : Nat) (a b : Particle), (SortParticles pool)[i]? = some a →
        (SortParticles pool)[j]? = some b → a.life ≤ 0 → b.life > 0 → j < i)) ∧
    ((∀ (i : Nat) (a b : Particle), (SortRaindrops pool)[i]? = some a →
        (SortRaindrops pool)[i + 1]? = some b → a.cameradistance ≥ b.cameradistance) ∧
      (∀ (i j : Nat) (a b : Particle), (SortRaindrops pool)[i]? = some a →
        (SortRaindrops pool)[j]? = some b → a.life ≤ 0 → b.life > 0 → j < i)) :=
  ⟨ordered_pool_shape pool (SortParticles pool) (std_sort_perm pool) (std_sort_ordered pool) hinv,
   ordered_pool_shape pool (SortRaindrops pool) (std_sort_perm pool) (std_sort_ordered pool) hinv⟩

/-- The sentinel invariant holds on `examplePool`. -/
theorem sort_orders_pool_witness :
    (∀ p ∈ examplePool, (p.life ≤ 0 → p.cameradistance = -1) ∧
      (p.life > 0 → p.cameradistance ≥ 0)) ∧
    (∀ (i j : Nat) (a b : Particle), (SortParticles examplePool)[i]? = some a →
      (SortParticles examplePool)[j]? = some b → a.life ≤ 0 → b.life > 0 → j < i) :=
  have h : ∀ p ∈ examplePool, (p.life ≤ 0 → p.cameradistance = -1) ∧
      (p.life > 0 → p.cameradistance ≥ 0) := by
    intro p hp
    simp only [examplePool, List.mem_cons, List.mem_singleton, List.not_mem_nil, or_false] at hp
    rcases hp with rfl | rfl | rfl <;> norm_num [freshSlot]
  ⟨h, (sort_orders_pool examplePool h).1.2⟩

/-! ## Sentinel consistency: claim C9 -/

theorem mem_updateSlot {pool : List Particle} {i : Nat} {f : Particle → Particle}
    {q : Particle} (h : q ∈ updateSlot pool i f) : q ∈ pool ∨ ∃ p, p ∈ pool ∧ q = f p := by
  unfold updateSlot at h
  cases hp : pool[i]? with
  | none => rw [hp] at h; exact Or.inl h
  | some p =>
    rw [hp] at h
    rcases List.mem_or_eq_of_mem_set h with h | h
    · exact Or.inl h
    · exact Or.inr ⟨p, List.getElem?_mem hp, h⟩

theorem smokeSpawnLoop_sentinel (rand : Nat → Nat) :
    ∀ (n k : Nat) (pool : List Particle) (cursor : Nat),
      (∀ p ∈ pool, p.life ≤ 0 → p.cameradistance = -1) →
      ∀ p ∈ (smokeSpawnLoop rand n k pool cursor).1, p.life ≤ 0 → p.cameradistance = -1 := by
  intro n
  induction n with
  | zero => intro k pool cursor h; simpa [smokeSpawnLoop] using h
  | succ m ih =>
    intro k pool cursor h
    unfold smokeSpawnLoop
    apply ih
    intro q hq hlife
    rcases mem_updateSlot hq with hq | ⟨p, _, rfl⟩
    · exact h q hq hlife
    · exfalso
      have : (spawnSmoke rand k p).life = 1 := rfl
      rw [this] at hlife
      norm_num at hlife

theorem rainSpawnLoop_sentinel (rand : Nat → Nat) (smoke : List Particle) :
    ∀ (n k : Nat) (rain : List Particle) (cursor : Nat),
      (∀ p ∈ rain, p.life ≤ 0 → p.cameradistance = -1) →
      ∀ p ∈ (rainSpawnLoop rand smoke n k rain cursor).1,
        p.life ≤ 0 → p.cameradistance = -1 := by
  intro n
  induction n with
  | zero => intro k rain cursor h; simpa [rainSpawnLoop] using h
  | succ m ih =>
    intro k rain cursor h
    unfold rainSpawnLoop
    apply ih
    intro q hq hlife
    rcases mem_updateSlot hq with hq | ⟨p, _, rfl⟩
    · exact h q hq hlife
    · exfalso
      have : (spawnRain rand k p).life = 6 := rfl
      rw [this] at hlife
      norm_num at hlife

theorem length2_nonneg (u : Vec3) : 0 ≤ u.length2 := by
  unfold Vec3.length2
  have h1 := mul_self_nonneg u.x
  have h2 := mul_self_nonneg u.y
  have h3 := mul_self_nonneg u.z
  linarith

theorem integrate_sentinel (dir : Vec3) (delta : ℚ) (cam : Vec3) (p : Particle)
    (h : p.life ≤ 0 → p.cameradistance = -1) :
    (integrate dir delta cam p).cameradistance = -1 ↔ (integrate dir delta cam p).life ≤ 0 := by
  unfold integrate
  by_cases h1 : p.life > 0
  · rw [if_pos h1]
    by_cases h2 : p.life - delta > 0
    · rw [if_pos h2]
      have hcd : (advance dir delta cam { p with life := p.life - delta }).cameradistance ≥ 0 :=
        length2_nonneg _
      have hlife : (advance dir delta cam { p with life := p.life - delta }).life =
          p.life - delta := rfl
      rw [hlife]
      constructor
      · intro hneg; rw [hneg] at hcd; norm_num at hcd
      · intro hle; exact absurd hle (not_le.mpr h2)
    · rw [if_neg h2]
      exact ⟨fun _ => not_lt.mp h2, fun _ => rfl⟩
  · rw [if_neg h1]
    exact ⟨fun _ => not_lt.mp h1, fun hle => h hle⟩

theorem simulate_sentinel (dir : Vec3) (delta : ℚ) (cam : Vec3) (pool : List Particle)
    (pbuf : List ℚ) (cbuf : List Nat) (count : Nat)
    (h : ∀ p ∈ pool, p.life ≤ 0 → p.cameradistance = -1) :
    ∀ q ∈ (simulate dir delta cam pool pbuf cbuf count).pool,
      q.cameradistance = -1 ↔ q.life ≤ 0 := by
  intro q hq
  rw [simulate_pool] at hq
  obtain ⟨p, hp, rfl⟩ := List.mem_map.mp hq
  exact integrate_sentinel dir delta cam p (h p hp)

theorem smokeSimulated_sentinel (s : State) (inp : FrameInput)
    (h : ∀ p ∈ s.ParticlesContainer, p.life ≤ 0 → p.cameradistance = -1) :
    ∀ q ∈ (smokeSimulated s inp).pool, q.cameradistance = -1 ↔ q.life ≤ 0 :=
  simulate_sentinel _ _ _ _ _ _ _ (smokeSpawnLoop_sentinel _ _ _ _ _ h)

theorem rainSimulated_sentinel (s : State) (inp : FrameInput)
    (h : ∀ p ∈ s.RaindropsContainer, p.life ≤ 0 → p.cameradistance = -1) :
    ∀ q ∈ (rainSimulated s inp).pool, q.cameradistance = -1 ↔ q.life ≤ 0 :=
  simulate_sentinel _ _ _ _ _ _ _ (rainSpawnLoop_sentinel _ _ _ _ _ _ h)

theorem frame_sentinel (s : State) (inp : FrameInput)
    (h : (∀ p ∈ s.ParticlesContainer, p.life ≤ 0 → p.cameradistance = -1) ∧
      (∀ p ∈ s.RaindropsContainer, p.life ≤ 0 → p.cameradistance = -1)) :
    (∀ p ∈ (frame s inp).ParticlesContainer, p.life ≤ 0 → p.cameradistance = -1) ∧
    (∀ p ∈ (frame s inp).RaindropsContainer, p.life ≤ 0 → p.cameradistance = -1) := by
  constructor
  · intro p hp hlife
    have hp2 : p ∈ (smokeSimulated s inp).pool := (std_sort_perm _).mem_iff.mp hp
    exact (smokeSimulated_sentinel s inp h.1 p hp2).mpr hlife
  · intro p hp hlife
    have hp2 : p ∈ (rainSimulated s inp).pool := (std_sort_perm _).mem_iff.mp hp
    exact (rainSimulated_sentinel s inp h.2 p hp2).mpr hlife

theorem runFrames_sentinel :
    ∀ (inputs : List FrameInput) (s : State),
      ((∀ p ∈ s.ParticlesContainer, p.life ≤ 0 → p.cameradistance = -1) ∧
        (∀ p ∈ s.RaindropsContainer, p.life ≤ 0 → p.cameradistance = -1)) →
      (∀ p ∈ (runFrames s inputs).ParticlesContainer, p.life ≤ 0 → p.cameradistance = -1) ∧
      (∀ p ∈ (runFrames s inputs).RaindropsContainer, p.life ≤ 0 → p.cameradistance = -1) := by
  intro inputs
  induction inputs with
  | nil => intro s h; exact h
  | cons inp rest ih =>
    intro s h
    exact ih (frame s inp) (frame_sentinel s inp h)

theorem initState_sentinel (n : Nat) (pbuf : List ℚ) (cbuf : List Nat) (pbufRain : List ℚ)
    (cbufRain : List Nat) :
    (∀ p ∈ (initState n pbuf cbuf pbufRain cbufRain).ParticlesContainer,
      p.life ≤ 0 → p.cameradistance = -1) ∧
    (∀ p ∈ (initState n pbuf cbuf pbufRain cbufRain).RaindropsContainer,
      p.life ≤ 0 → p.cameradistance = -1) := by
  constructor <;>
  · intro p hp _
    have : p = freshSlot := List.eq_of_mem_replicate hp
    rw [this]; rfl

/-- C9: from the initial pools of any capacity `n` (every slot `life = -1`,
`cameradistance = -1`), after any sequence `inputs` of frames and then the
spawn loop and the integration pass of one more frame `inp`, with any frame
times, viewer positions and results of `rand()`, every slot of the smoke
pool, and every slot of the rain pool, has `cameradistance = -1` if and only
if `life <= 0`; the sort that follows keeps this. -/
theorem sentinel_consistency (n : Nat) (pbuf : List ℚ) (cbuf : List Nat)
    (pbufRain : List ℚ) (cbufRain : List Nat) (inputs : List FrameInput) (inp : FrameInput) :
    (∀ q ∈ (smokeSimulated (runFrames (initState n pbuf cbuf pbufRain cbufRain) inputs)
        inp).pool, q.cameradistance = -1 ↔ q.life ≤ 0) ∧
    (∀ q ∈ (rainSimulated (runFrames (initState n pbuf cbuf pbufRain cbufRain) inputs)
        inp).pool, q.cameradistance = -1 ↔ q.life ≤ 0) ∧
    (∀ q ∈ (frame (runFrames (initState n pbuf cbuf pbufRain cbufRain) inputs)
        inp).ParticlesContainer, q.cameradistance = -1 ↔ q.life ≤ 0) := by
  have h := runFrames_sentinel inputs _ (initState_sentinel n pbuf cbuf pbufRain cbufRain)
  refine ⟨smokeSimulated_sentinel _ inp h.1, rainSimulated_sentinel _ inp h.2, ?_⟩
  intro q hq
  exact smokeSimulated_sentinel _ inp h.1 q ((std_sort_perm _).mem_iff.mp hq)

/-! ## Expiry and the allocator: claim C10 -/

/-- A live particle whose life falls strictly below zero in the pass ends with
`life < 0` and `cameradistance = -1`: the allocator test accepts it. -/
theorem integrate_expired_below_zero (dir : Vec3) (delta : ℚ) (cam : Vec3) (p : Particle)
    (hlive : p.life > 0) (hexp : p.life - delta < 0) :
    (integrate dir delta cam p).life < 0 ∧ (integrate dir delta cam p).cameradistance = -1 := by
  unfold integrate
  rw [if_pos hlive, if_neg (not_lt.mpr (le_of_lt hexp))]
  exact ⟨hexp, rfl⟩

/-- The turn of a particle that expires writes to neither buffer: the loop
goes on with the buffers it was entered with. -/
theorem simulate_expired_no_write (dir : Vec3) (delta : ℚ) (cam : Vec3) (p : Particle)
    (rest : List Particle) (pbuf : List ℚ) (cbuf : List Nat) (count : Nat)
    (hlive : p.life > 0) (hexp : p.life - delta ≤ 0) :
    (simulate dir delta cam (p :: rest) pbuf cbuf count).position_size_data =
      (simulate dir delta cam rest pbuf cbuf (count + 1)).position_size_data ∧
    (simulate dir delta cam (p :: rest) pbuf cbuf count).color_data =
      (simulate dir delta cam rest pbuf cbuf (count + 1)).color_data := by
  have h2 : ¬ (p.life - delta > 0) := not_lt.mpr hexp
  constructor <;>
  · conv_lhs => unfold simulate
    simp only [hlive, h2, if_true, if_false]

/-- C10, the code at a freshly spawned particle (`life = 1`) followed by a
dead slot, with `delta = 1`: the pass leaves the particle with `life = 0` and
`cameradistance = -1` and writes nothing to the buffers, and the allocator
then skips slot 0 (its `life` is not below zero) and returns slot 1. -/
theorem expired_at_zero :
    (SimulateParticles 1 ⟨0, 0, 0⟩ [{ freshSlot with life := 1 }, freshSlot]
      (List.replicate 8 0) (List.replicate 8 0)) =
      ⟨[{ freshSlot with life := 0 }, freshSlot], List.replicate 8 0, List.replicate 8 0, 1⟩ ∧
    isUnused [{ freshSlot with life := 0 }, freshSlot] 0 = false ∧
    FindUnusedParticle [{ freshSlot with life := 0 }, freshSlot] 0 = (1, 1) := by
  refine ⟨?_, ?_, ?_⟩
  · norm_num [SimulateParticles, simulate, freshSlot]
  · simp [isUnused]
  · simp [FindUnusedParticle, scanUnused, isUnused, freshSlot]

/-! ## The sort as a rearrangement: claim C15 -/

theorem liveCount_perm {l1 l2 : List Particle} (h : l1.Perm l2) :
    liveCount l1 = liveCount l2 :=
  h.countP_eq _

/-- C15: `SortParticles` and `SortRaindrops` only reorder. The pool after the
sort is a permutation of the pool before it: every particle record, with all
its fields, occurs as often after as before, so the length of the pool and the
number of live slots are unchanged. -/
theorem sort_is_permutation (pool : List Particle) :
    ((SortParticles pool).Perm pool ∧
      (∀ p : Particle, (SortParticles pool).count p = pool.count p) ∧
      (SortParticles pool).length = pool.length ∧
      liveCount (SortParticles pool) = liveCount pool) ∧
    ((SortRaindrops pool).Perm pool ∧
      (∀ p : Particle, (SortRaindrops pool).count p = pool.count p) ∧
      (SortRaindrops pool).length = pool.length ∧
      liveCount (SortRaindrops pool) = liveCount pool) := by
  have h : (std_sort pool).Perm pool := std_sort_perm pool
  exact ⟨⟨h, fun p => h.count_eq p, h.length_eq, liveCount_perm h⟩,
    ⟨h, fun p => h.count_eq p, h.length_eq, liveCount_perm h⟩⟩

/-! ## The frame condition of the integration pass: claim C16 -/

theorem integrate_frame (dir : Vec3) (delta : ℚ) (cam : Vec3) (p : Particle) :
    (p.life ≤ 0 → integrate dir delta cam p = p) ∧
    (integrate dir delta cam p).r = p.r ∧ (integrate dir delta cam p).g = p.g ∧
    (integrate dir delta cam p).b = p.b ∧ (integrate dir delta cam p).a = p.a ∧
    (integrate dir delta cam p).size = p.size ∧
    (p.life ≤ 0 → ¬ (integrate dir delta cam p).life > 0) := by
  unfold integrate
  by_cases h1 : p.life > 0
  · rw [if_pos h1]
    have hno : ¬ p.life ≤ 0 := not_le.mpr h1
    by_cases h2 : p.life - delta > 0
    · rw [if_pos h2]
      exact ⟨fun h => absurd h hno, rfl, rfl, rfl, rfl, rfl, fun h => absurd h hno⟩
    · rw [if_neg h2]
      exact ⟨fun h => absurd h hno, rfl, rfl, rfl, rfl, rfl, fun h => absurd h hno⟩
  · rw [if_neg h1]
    exact ⟨fun _ => rfl, rfl, rfl, rfl, rfl, rfl, fun _ => h1⟩

/-- C16: the integration pass (smoke and rain) leaves a slot that is not live
before it (`life <= 0`) exactly as it was, leaves the colour channels `r`, `g`,
`b`, `a` and the `size` of every slot unchanged, and never makes a slot live
that was not live before, whatever `delta` is. -/
theorem integration_frame_condition (delta : ℚ) (cam : Vec3) (pool : List Particle)
    (pbuf : List ℚ) (cbuf : List Nat) (i : Nat) (p : Particle) (hp : pool[i]? = some p) :
    (∃ q, (SimulateParticles delta cam pool pbuf cbuf).pool[i]? = some q ∧
      (p.life ≤ 0 → q = p) ∧ q.r = p.r ∧ q.g = p.g ∧ q.b = p.b ∧ q.a = p.a ∧
      q.size = p.size ∧ (p.life ≤ 0 → ¬ q.life > 0)) ∧
    (∃ q, (SimulateRaindrops delta cam pool pbuf cbuf).pool[i]? = some q ∧
      (p.life ≤ 0 → q = p) ∧ q.r = p.r ∧ q.g = p.g ∧ q.b = p.b ∧ q.a = p.a ∧
      q.size = p.size ∧ (p.life ≤ 0 → ¬ q.life > 0)) := by
  constructor
  · refine ⟨integrate ⟨0, 1, 0⟩ delta cam p, ?_, integrate_frame _ delta cam p⟩
    unfold SimulateParticles
    rw [simulate_pool_getElem?, hp]; rfl
  · refine ⟨integrate ⟨0, 0, 0⟩ delta cam p, ?_, integrate_frame _ delta cam p⟩
    unfold SimulateRaindrops
    rw [simulate_pool_getElem?, hp]; rfl

/-- Slot 1 of `examplePool`, a live particle, in a frame of a quarter second. -/
theorem integration_frame_condition_witness :
    examplePool[1]? = some { freshSlot with life := 1, cameradistance := 4 } ∧
    ∃ q, (SimulateParticles (1 / 4) ⟨0, 0, 0⟩ examplePool [] []).pool[1]? = some q ∧
      q.size = ({ freshSlot with life := 1, cameradistance := 4 } : Particle).size :=
  ⟨rfl,
    let ⟨q, h1, _, _, _, _, _, h2, _⟩ := (integration_frame_condition (1 / 4) ⟨0, 0, 0⟩
      examplePool [] [] 1 { freshSlot with life := 1, cameradistance := 4 } rfl).1
    ⟨q, h1, h2⟩⟩

/-! ## The comparison: claim C17 -/

theorem lt_iff (a b : Particle) :
    Particle.lt a b = true ↔ a.cameradistance > b.cameradistance := by
  simp [Particle.lt]

theorem lt_false_iff (a b : Particle) :
    Particle.lt a b = false ↔ a.cameradistance ≤ b.cameradistance := by
  simp [Particle.lt]

/-- C17: `Particle::operator<` (`a < b` iff `a.cameradistance >
b.cameradistance`) is a strict weak ordering: it is irreflexive, asymmetric and
transitive, two particles are incomparable exactly when their distances are
equal, and incomparability is transitive. -/
theorem operator_lt_strict_weak_order :
    (∀ a : Particle, Particle.lt a a = false) ∧
    (∀ a b : Particle, Particle.lt a b = true → Particle.lt b a = false) ∧
    (∀ a b c : Particle, Particle.lt a b = true → Particle.lt b c = true →
      Particle.lt a c = true) ∧
    (∀ a b : Particle, (Particle.lt a b = false ∧ Particle.lt b a = false) ↔
      a.cameradistance = b.cameradistance) ∧
    (∀ a b c : Particle, Particle.lt a b = false ∧ Particle.lt b a = false →
      Particle.lt b c = false ∧ Particle.lt c b = false →
      Particle.lt a c = false ∧ Particle.lt c a = false) := by
  refine ⟨?_, ?_, ?_, ?_, ?_⟩
  · intro a
    exact (lt_false_iff a a).mpr (le_refl _)
  · intro a b h
    exact (lt_false_iff b a).mpr (le_of_lt ((lt_iff a b).mp h))
  · intro a b c h1 h2
    exact (lt_iff a c).mpr (lt_trans ((lt_iff b c).mp h2) ((lt_iff a b).mp h1))
  · intro a b
    rw [lt_false_iff, lt_false_iff]
    exact ⟨fun h => le_antisymm h.1 h.2, fun h => ⟨le_of_eq h, le_of_eq h.symm⟩⟩
  · intro a b c h1 h2
    rw [lt_false_iff, lt_false_iff] at *
    exact ⟨le_trans h1.1 h2.1, le_trans h2.2 h1.2⟩

/-! ## Frames without spawn: claim C11 -/

theorem liveCount_map_integrate_le (dir : Vec3) (delta : ℚ) (cam : Vec3) :
    ∀ pool : List Particle,
      liveCount (pool.map (integrate dir delta cam)) ≤ liveCount pool := by
  intro pool
  induction pool with
  | nil => simp [liveCount]
  | cons p rest ih =>
    unfold liveCount at ih ⊢
    rw [List.map_cons, List.countP_cons, List.countP_cons]
    by_cases h : p.life > 0
    · have : (if decide (p.life > 0) = true then 1 else 0) = 1 := by simp [h]
      rw [this]
      split <;> omega
    · have hq := (integrate_frame dir delta cam p).2.2.2.2.2.2 (not_lt.mp h)
      have : (if decide ((integrate dir delta cam p).life > 0) = true then 1 else 0) = 0 := by
        simp only [decide_eq_true_eq, hq, if_false]
      rw [this]
      omega

theorem liveCount_simulate_le (dir : Vec3) (delta : ℚ) (cam : Vec3) (pool : List Particle)
    (pbuf : List ℚ) (cbuf : List Nat) (count : Nat) :
    liveCount (simulate dir delta cam pool pbuf cbuf count).pool ≤ liveCount pool := by
  rw [simulate_pool]
  exact liveCount_map_integrate_le dir delta cam pool

theorem smokeSpawned_no_turn (s : State) (inp : FrameInput)
    (h : turns (newparticles inp.delta) = 0) :
    smokeSpawned s inp = (s.ParticlesContainer, s.LastUsedParticle) := by
  unfold smokeSpawned
  rw [h]
  rfl

theorem rainSpawned_no_turn (s : State) (inp : FrameInput)
    (h : turns (newparticles_rain inp.delta) = 0) :
    (rainSpawned s inp).1 = s.RaindropsContainer := by
  unfold rainSpawned
  rw [h]
  rfl

theorem newparticles_zero : newparticles 0 = 0 := by
  unfold newparticles
  rw [toInt_smoke_ceiling, zero_mul, toInt_of_nonneg (le_refl _), Int.floor_zero]
  rfl

theorem newparticles_rain_zero : newparticles_rain 0 = 0 := by
  unfold newparticles_rain
  rw [toInt_rain_ceiling, zero_mul, toInt_of_nonneg (le_refl _), Int.floor_zero]
  rfl

/-- C11: when the second of two consecutive frames spawns no smoke particle,
its `ParticlesCount` is at most the `ParticlesCount` of the frame before, and
the number of slots with `life > 0` after its integration pass is at most that
number after the pass of the frame before, for every state and every `delta`;
the same holds for `RaindropsCount` and the rain pool when the second frame
spawns no raindrop. -/
theorem no_spawn_count_monotone (s : State) (inp1 inp2 : FrameInput)
    (h : turns (newparticles inp2.delta) = 0) :
    ParticlesCount (frame s inp1) inp2 ≤ ParticlesCount s inp1 ∧
    liveCount (smokeSimulated (frame s inp1) inp2).pool ≤
      liveCount (smokeSimulated s inp1).pool ∧
    (turns (newparticles_rain inp2.delta) = 0 →
      RaindropsCount (frame s inp1) inp2 ≤ RaindropsCount s inp1 ∧
      liveCount (rainSimulated (frame s inp1) inp2).pool ≤
        liveCount (rainSimulated s inp1).pool) := by
  have hsort : liveCount (frame s inp1).ParticlesContainer =
      liveCount (smokeSimulated s inp1).pool := liveCount_perm (std_sort_perm _)
  have hsortR : liveCount (frame s inp1).RaindropsContainer =
      liveCount (rainSimulated s inp1).pool := liveCount_perm (std_sort_perm _)
  refine ⟨?_, ?_, ?_⟩
  · unfold ParticlesCount
    conv_lhs => unfold smokeSimulated SimulateParticles
    conv_rhs => unfold smokeSimulated SimulateParticles
    rw [simulate_count, simulate_count, smokeSpawned_no_turn _ _ h, Nat.zero_add,
      Nat.zero_add, hsort]
    exact liveCount_simulate_le _ _ _ _ _ _ _
  · conv_lhs => unfold smokeSimulated SimulateParticles
    rw [smokeSpawned_no_turn _ _ h]
    exact le_trans (liveCount_simulate_le _ _ _ _ _ _ _) (le_of_eq hsort)
  · intro hr
    constructor
    · unfold RaindropsCount
      conv_lhs => unfold rainSimulated SimulateRaindrops
      conv_rhs => unfold rainSimulated SimulateRaindrops
      rw [simulate_count, simulate_count, rainSpawned_no_turn _ _ hr, Nat.zero_add,
        Nat.zero_add, hsortR]
      exact liveCount_simulate_le _ _ _ _ _ _ _
    · conv_lhs => unfold rainSimulated SimulateRaindrops
      rw [rainSpawned_no_turn _ _ hr]
      exact le_trans (liveCount_simulate_le _ _ _ _ _ _ _) (le_of_eq hsortR)

/-- The state `smokeAndRainState`, a frame of one microsecond and then a
frame of zero duration. -/
theorem no_spawn_count_monotone_witness :
    turns (newparticles stillFrame.delta) = 0 ∧
    ParticlesCount (frame smokeAndRainState microFrame) stillFrame ≤
      ParticlesCount smokeAndRainState microFrame :=
  have h : turns (newparticles stillFrame.delta) = 0 := by
    show turns (newparticles 0) = 0
    rw [newparticles_zero]; rfl
  ⟨h, (no_spawn_count_monotone smokeAndRainState microFrame stillFrame h).1⟩

/-! ## The smoke spawn loop: claim C14 -/

theorem updateSlot_of_getElem? {pool : List Particle} {i : Nat} {p : Particle}
    (f : Particle → Particle) (h : pool[i]? = some p) :
    updateSlot pool i f = pool.set i (f p) := by
  unfold updateSlot
  rw [h]

theorem getElem?_updateSlot_self {pool : List Particle} {i : Nat} {p : Particle}
    (f : Particle → Particle) (h : pool[i]? = some p) :
    (updateSlot pool i f)[i]? = some (f p) := by
  rw [updateSlot_of_getElem? f h, List.getElem?_set]
  have hi : i < pool.length := (List.getElem?_eq_some_iff.mp h).1
  simp [hi]

theorem getElem?_updateSlot_ne {pool : List Particle} {i j : Nat}
    (f : Particle → Particle) (h : j ≠ i) :
    (updateSlot pool i f)[j]? = pool[j]? := by
  unfold updateSlot
  cases hp : pool[i]? with
  | none => rfl
  | some p =>
    show (pool.set i (f p))[j]? = pool[j]?
    rw [List.getElem?_set]
    simp [Ne.symm h]

theorem length_updateSlot (pool : List Particle) (i : Nat) (f : Particle → Particle) :
    (updateSlot pool i f).length = pool.length := by
  unfold updateSlot
  cases hp : pool[i]? with
  | none => rfl
  | some p => exact List.length_set _ _ _

/-- Replacing one slot changes a count by what the old and the new content
contribute. -/
theorem countP_set_slot (t : Particle → Bool) (p' : Particle) :
    ∀ (pool : List Particle) (i : Nat) (p : Particle), pool[i]? = some p →
      List.countP t (pool.set i p') + (if t p = true then 1 else 0) =
        List.countP t pool + (if t p' = true then 1 else 0) := by
  intro pool
  induction pool with
  | nil => intro i p h; simp at h
  | cons a rest ih =>
    intro i p h
    cases i with
    | zero =>
      have ha : a = p := by simpa using h
      subst ha
      rw [List.set_cons_zero, List.countP_cons, List.countP_cons]
      omega
    | succ m =>
      have hm : rest[m]? = some p := by simpa using h
      rw [List.set_cons_succ, List.countP_cons, List.countP_cons]
      have := ih m p hm
      omega

theorem FindUnusedParticle_isUnused (pool : List Particle) (c : Nat)
    (h : ∃ i, isUnused pool i = true) :
    isUnused pool (FindUnusedParticle pool c).1 = true := by
  obtain ⟨i, hi⟩ := h
  have hlen : i < pool.length := isUnused_lt_length hi
  rcases FindUnusedParticle_cases pool c with
    ⟨j, hj, _, _, hu, _⟩ | ⟨j, hj, _, hu, _⟩ | ⟨_, n1, n2⟩
  · rw [hj]; exact hu
  · rw [hj]; exact hu
  · exfalso
    by_cases hic : i < c
    · rw [n2 i hic] at hi; cases hi
    · rw [n1 i (by omega) (by omega)] at hi; cases hi

theorem exists_isUnused_of_deadCount_pos {pool : List Particle} (h : 0 < deadCount pool) :
    ∃ i, isUnused pool i = true := by
  unfold deadCount at h
  obtain ⟨a, ha, hdead⟩ := List.countP_pos_iff.mp h
  obtain ⟨i, hi⟩ := List.mem_iff_getElem?.mp ha
  exact ⟨i, isUnused_iff.mpr ⟨a, hi, by simpa using hdead⟩⟩

/-- One turn of the smoke spawn loop on a pool with an unused slot: the slot
obtained was unused, it is the only slot written, one unused slot fewer and one
live slot more are left. -/
theorem smoke_spawn_turn (rand : Nat → Nat) (k : Nat) (pool : List Particle) (cursor : Nat)
    (h : 0 < deadCount pool) :
    ∃ p, pool[(FindUnusedParticle pool cursor).1]? = some p ∧ p.life < 0 ∧
      (updateSlot pool (FindUnusedParticle pool cursor).1 (spawnSmoke rand k))[(FindUnusedParticle
        pool cursor).1]? = some (spawnSmoke rand k p) ∧
      deadCount (updateSlot pool (FindUnusedParticle pool cursor).1 (spawnSmoke rand k)) + 1 =
        deadCount pool ∧
      liveCount (updateSlot pool (FindUnusedParticle pool cursor).1 (spawnSmoke rand k)) =
        liveCount pool + 1 := by
  have hu := FindUnusedParticle_isUnused pool cursor (exists_isUnused_of_deadCount_pos h)
  obtain ⟨p, hp, hdead⟩ := isUnused_iff.mp hu
  refine ⟨p, hp, hdead, getElem?_updateSlot_self _ hp, ?_, ?_⟩
  · rw [updateSlot_of_getElem? _ hp]
    have := countP_set_slot (fun q => decide (q.life < 0)) (spawnSmoke rand k p) pool _ p hp
    have h1 : (if decide (p.life < 0) = true then 1 else 0) = 1 := by simp [hdead]
    have h2 : (if decide ((spawnSmoke rand k p).life < 0) = true then 1 else 0) = 0 := by
      have : (spawnSmoke rand k p).life = 1 := rfl
      rw [this]; norm_num
    simp only [h1, h2] at this
    unfold deadCount
    omega
  · rw [updateSlot_of_getElem? _ hp]
    have := countP_set_slot (fun q => decide (q.life > 0)) (spawnSmoke rand k p) pool _ p hp
    have h1 : (if decide (p.life > 0) = true then 1 else 0) = 0 := by
      have : ¬ p.life > 0 := not_lt.mpr (le_of_lt hdead)
      simp [this]
    have h2 : (if decide ((spawnSmoke rand k p).life > 0) = true then 1 else 0) = 1 := by
      have : (spawnSmoke rand k p).life = 1 := rfl
      rw [this]; norm_num
    simp only [h1, h2] at this
    unfold liveCount
    omega

/-- The smoke spawn loop on a pool with at least `n` unused slots. -/
theorem smokeSpawnLoop_spec (rand : Nat → Nat) :
    ∀ (n k : Nat) (pool : List Particle) (cursor : Nat), n ≤ deadCount pool →
      (smokeSpawnSlots rand n k pool cursor).length = n ∧
      (smokeSpawnSlots rand n k pool cursor).Nodup ∧
      (∀ (t i : Nat), (smokeSpawnSlots rand n k pool cursor)[t]? = some i →
        ∃ p, pool[i]? = some p ∧ p.life < 0 ∧
          (smokeSpawnLoop rand n k pool cursor).1[i]? = some (spawnSmoke rand (k + 8 * t) p)) ∧
      (∀ i, i ∉ smokeSpawnSlots rand n k pool cursor →
        (smokeSpawnLoop rand n k pool cursor).1[i]? = pool[i]?) ∧
      liveCount (smokeSpawnLoop rand n k pool cursor).1 = liveCount pool + n ∧
      (smokeSpawnLoop rand n k pool cursor).1.length = pool.length := by
  intro n
  induction n with
  | zero =>
    intro k pool cursor _
    simp [smokeSpawnSlots, smokeSpawnLoop]
  | succ m ih =>
    intro k pool cursor hn
    obtain ⟨p, hp, hdead, hself, hdc, hlc⟩ := smoke_spawn_turn rand k pool cursor (by omega)
    obtain ⟨l1, l2, l3, l4, l5, l6⟩ := ih (k + 8)
      (updateSlot pool (FindUnusedParticle pool cursor).1 (spawnSmoke rand k))
      (FindUnusedParticle pool cursor).2 (by omega)
    have hnotin : (FindUnusedParticle pool cursor).1 ∉ smokeSpawnSlots rand m (k + 8)
        (updateSlot pool (FindUnusedParticle pool cursor).1 (spawnSmoke rand k))
        (FindUnusedParticle pool cursor).2 := by
      intro hmem
      obtain ⟨t, ht⟩ := List.mem_iff_getElem?.mp hmem
      obtain ⟨q, hq, hqdead, _⟩ := l3 t _ ht
      rw [hself] at hq
      have hq2 : spawnSmoke rand k p = q := by simpa using hq
      have : (spawnSmoke rand k p).life = 1 := rfl
      rw [← hq2, this] at hqdead
      norm_num at hqdead
    unfold smokeSpawnSlots smokeSpawnLoop
    refine ⟨by rw [List.length_cons, l1], List.nodup_cons.mpr ⟨hnotin, l2⟩, ?_, ?_, ?_, ?_⟩
    · intro t i ht
      cases t with
      | zero =>
        have hi : (FindUnusedParticle pool cursor).1 = i := by simpa using ht
        subst hi
        exact ⟨p, hp, hdead, by rw [l4 _ hnotin, hself]; rfl⟩
      | succ t' =>
        have ht2 : (smokeSpawnSlots rand m (k + 8)
            (updateSlot pool (FindUnusedParticle pool cursor).1 (spawnSmoke rand k))
            (FindUnusedParticle pool cursor).2)[t']? = some i := by simpa using ht
        obtain ⟨q, hq, hqdead, hout⟩ := l3 t' i ht2
        have hne : i ≠ (FindUnusedParticle pool cursor).1 := by
          intro heq
          have hmem := List.getElem?_mem ht2
          rw [heq] at hmem
          exact hnotin hmem
        rw [getElem?_updateSlot_ne _ hne] at hq
        refine ⟨q, hq, hqdead, ?_⟩
        rw [hout]
        have : k + 8 + 8 * t' = k + 8 * (t' + 1) := by omega
        rw [this]
    · intro i hi
      have hne : i ≠ (FindUnusedParticle pool cursor).1 := fun heq =>
        hi (heq ▸ List.mem_cons_self _ _)
      have hni : i ∉ smokeSpawnSlots rand m (k + 8)
          (updateSlot pool (FindUnusedParticle pool cursor).1 (spawnSmoke rand k))
          (FindUnusedParticle pool cursor).2 := fun hmem => hi (List.mem_cons_of_mem _ hmem)
      rw [l4 i hni, getElem?_updateSlot_ne _ hne]
    · rw [l5, hlc]; omega
    · rw [l6, length_updateSlot]

/-- C14: on a pool with at least `n` dead slots (`life < 0`), the smoke spawn
loop run `n` times obtains `n` pairwise distinct slots from the allocator, each
of them dead before the loop and holding a freshly initialised particle after
it; every other slot, and so every slot that was live before, is unchanged,
and the number of live slots has grown by exactly `n`. -/
theorem smoke_spawn_fills_dead_slots (rand : Nat → Nat) (n k : Nat) (pool : List Particle)
    (cursor : Nat) (hn : n ≤ deadCount pool) :
    (smokeSpawnSlots rand n k pool cursor).length = n ∧
    (smokeSpawnSlots rand n k pool cursor).Nodup ∧
    (∀ (t i : Nat), (smokeSpawnSlots rand n k pool cursor)[t]? = some i →
      ∃ p, pool[i]? = some p ∧ p.life < 0 ∧
        (smokeSpawnLoop rand n k pool cursor).1[i]? = some (spawnSmoke rand (k + 8 * t) p)) ∧
    (∀ i, i ∉ smokeSpawnSlots rand n k pool cursor →
      (smokeSpawnLoop rand n k pool cursor).1[i]? = pool[i]?) ∧
    (∀ (i : Nat) (p : Particle), pool[i]? = some p → p.life > 0 →
      (smokeSpawnLoop rand n k pool cursor).1[i]? = some p) ∧
    liveCount (smokeSpawnLoop rand n k pool cursor).1 = liveCount pool + n := by
  obtain ⟨l1, l2, l3, l4, l5, _⟩ := smokeSpawnLoop_spec rand n k pool cursor hn
  refine ⟨l1, l2, l3, l4, ?_, l5⟩
  intro i p hp hlive
  have hni : i ∉ smokeSpawnSlots rand n k pool cursor := by
    intro hmem
    obtain ⟨t, ht⟩ := List.mem_iff_getElem?.mp hmem
    obtain ⟨q, hq, hqdead, _⟩ := l3 t i ht
    rw [hp] at hq
    have : p = q := by simpa using hq
    rw [← this] at hqdead
    exact absurd hlive (not_lt.mpr (le_of_lt hqdead))
  rw [l4 i hni, hp]

/-- Two turns of the loop on `examplePool` extended by a second dead slot. -/
theorem smoke_spawn_fills_dead_slots_witness :
    2 ≤ deadCount (freshSlot :: examplePool) ∧
    liveCount (smokeSpawnLoop (fun _ => 0) 2 0 (freshSlot :: examplePool) 0).1 =
      liveCount (freshSlot :: examplePool) + 2 :=
  have h : 2 ≤ deadCount (freshSlot :: examplePool) := by
    norm_num [deadCount, examplePool, freshSlot, List.countP_cons]
  ⟨h, (smoke_spawn_fills_dead_slots (fun _ => 0) 2 0 (freshSlot :: examplePool) 0 h).2.2.2.2.2⟩

/-! ## The rain spawn loop and the shared allocator: claims C12 and C13 -/

theorem newparticles_micro : newparticles (1 / 1000000) = 0 := by
  unfold newparticles
  rw [toInt_smoke_ceiling, toInt_of_nonneg (by norm_num)]
  have : ⌊(1 / 1000000 : ℚ) * 10000⌋ = 0 := by
    rw [Int.floor_eq_iff]; constructor <;> norm_num
  rw [this]; rfl

theorem newparticles_rain_micro : newparticles_rain (1 / 1000000) = 1 := by
  unfold newparticles_rain
  rw [toInt_rain_ceiling, toInt_of_nonneg (by norm_num)]
  have : ⌊(1 / 1000000 : ℚ) * 1000000⌋ = 1 := by
    rw [Int.floor_eq_iff]; constructor <;> norm_num
  rw [this]; rfl

/-- The smoke pool of `rainOnlyState` after the smoke part of `microFrame`:
nothing is spawned, no slot is live, the sort leaves two dead slots. -/
theorem rainOnlyState_smoke :
    smokeSpawned rainOnlyState microFrame = ([freshSlot, freshSlot], 0) ∧
    SortParticles (smokeSimulated rainOnlyState microFrame).pool = [freshSlot, freshSlot] := by
  have h1 : smokeSpawned rainOnlyState microFrame = ([freshSlot, freshSlot], 0) := by
    unfold smokeSpawned
    show smokeSpawnLoop _ (turns (newparticles (1 / 1000000))) 0 _ _ = _
    rw [newparticles_micro]; rfl
  refine ⟨h1, ?_⟩
  unfold smokeSimulated SimulateParticles
  rw [simulate_pool, h1]
  norm_num [integrate, freshSlot, SortParticles, std_sort, orderedInsert, Particle.lt]

/-- The smoke pool of `smokeAndRainState` after the smoke part of
`microFrame`: the live particle stays live and stays in slot 0. -/
theorem smokeAndRainState_smoke :
    (smokeSpawned smokeAndRainState microFrame).2 = 0 ∧
    isUnused (SortParticles (smokeSimulated smokeAndRainState microFrame).pool) 0 = false ∧
    isUnused (SortParticles (smokeSimulated smokeAndRainState microFrame).pool) 1 = true := by
  have h1 : smokeSpawned smokeAndRainState microFrame = ([farParticle, freshSlot], 0) := by
    unfold smokeSpawned
    show smokeSpawnLoop _ (turns (newparticles (1 / 1000000))) 0 _ _ = _
    rw [newparticles_micro]; rfl
  refine ⟨by rw [h1], ?_, ?_⟩
  · unfold smokeSimulated SimulateParticles
    rw [simulate_pool, h1]
    norm_num [integrate, advance, freshSlot, farParticle, microFrame, SortParticles, std_sort,
      orderedInsert, Particle.lt, isUnused, Vec3.add, Vec3.sub, Vec3.smul, Vec3.length2]
  · unfold smokeSimulated SimulateParticles
    rw [simulate_pool, h1]
    norm_num [integrate, advance, freshSlot, farParticle, microFrame, SortParticles, std_sort,
      orderedInsert, Particle.lt, isUnused, Vec3.add, Vec3.sub, Vec3.smul, Vec3.length2]

theorem FindUnusedParticle_second_slot (pool : List Particle) (hlen : pool.length = 2)
    (h0 : isUnused pool 0 = false) (h1 : isUnused pool 1 = true) :
    FindUnusedParticle pool 0 = (1, 1) := by
  unfold FindUnusedParticle
  rw [hlen]
  simp [scanUnused, h0, h1]

theorem smokeAndRainState_smoke_length :
    (SortParticles (smokeSimulated smokeAndRainState microFrame).pool).length = 2 := by
  unfold SortParticles
  rw [(std_sort_perm _).length_eq]
  unfold smokeSimulated SimulateParticles
  rw [simulate_pool, List.length_map]
  unfold smokeSpawned
  show (smokeSpawnLoop _ (turns (newparticles (1 / 1000000))) 0 _ _).1.length = 2
  rw [newparticles_micro]; rfl

/-- The rain spawn loop of `microFrame` from `rainOnlyState`: one turn, which
writes rain slot 0. -/
theorem rainOnlyState_rainSpawned :
    rainSpawned rainOnlyState microFrame =
      ([spawnRain microFrame.rand 0 liveRaindrop, freshSlot], 0) := by
  unfold rainSpawned
  rw [rainOnlyState_smoke.2, rainOnlyState_smoke.1]
  show rainSpawnLoop _ _ (turns (newparticles_rain (1 / 1000000)))
    (8 * turns (newparticles (1 / 1000000))) _ _ = _
  rw [newparticles_micro, newparticles_rain_micro]
  simp [turns, rainSpawnLoop, FindUnusedParticle, scanUnused, isUnused, updateSlot, freshSlot,
    rainOnlyState]

/-- The rain spawn loop of `microFrame` from `smokeAndRainState`: one turn,
which writes rain slot 1. -/
theorem smokeAndRainState_rainSpawned :
    rainSpawned smokeAndRainState microFrame =
      ([liveRaindrop, spawnRain microFrame.rand 0 freshSlot], 1) := by
  have hfind := FindUnusedParticle_second_slot _ smokeAndRainState_smoke_length
    smokeAndRainState_smoke.2.1 smokeAndRainState_smoke.2.2
  unfold rainSpawned
  rw [smokeAndRainState_smoke.1]
  show rainSpawnLoop _ _ (turns (newparticles_rain (1 / 1000000)))
    (8 * turns (newparticles (1 / 1000000))) _ _ = _
  rw [newparticles_micro, newparticles_rain_micro]
  show rainSpawnLoop _ _ 1 0 _ _ = _
  unfold rainSpawnLoop
  rw [hfind]
  simp [rainSpawnLoop, updateSlot, smokeAndRainState, rainOnlyState]

/-- C12, the code at `rainOnlyState` and `microFrame`: rain slot 1 is dead and
rain slot 0 holds a live raindrop, the frame spawns one raindrop, and the
spawn step initialises rain slot 0, the index the allocator found free in the
smoke pool: the live raindrop is overwritten and rain slot 1 stays free. -/
theorem rain_spawn_overwrites_live_raindrop :
    isUnused rainOnlyState.RaindropsContainer 1 = true ∧
    rainOnlyState.RaindropsContainer[0]? = some liveRaindrop ∧
    liveRaindrop.life > 0 ∧
    turns (newparticles_rain microFrame.delta) = 1 ∧
    (FindUnusedParticle (SortParticles (smokeSimulated rainOnlyState microFrame).pool)
      (smokeSpawned rainOnlyState microFrame).2).1 = 0 ∧
    (rainSpawned rainOnlyState microFrame).1 =
      [spawnRain microFrame.rand 0 liveRaindrop, freshSlot] := by
  refine ⟨?_, rfl, ?_, ?_, ?_, ?_⟩
  · simp [isUnused, rainOnlyState, freshSlot]
  · norm_num [liveRaindrop]
  · show turns (newparticles_rain (1 / 1000000)) = 1
    rw [newparticles_rain_micro]; rfl
  · rw [rainOnlyState_smoke.2, rainOnlyState_smoke.1]
    simp [FindUnusedParticle, scanUnused, isUnused, freshSlot]
  · rw [rainOnlyState_rainSpawned]

/-- Apart from an unchanged `ParticlesContainer`, the smoke part of a frame
reads nothing that the rain part owns. -/
theorem smoke_independent_of_rain (s1 s2 : State) (inp : FrameInput)
    (hpool : s1.ParticlesContainer = s2.ParticlesContainer)
    (hcur : s1.LastUsedParticle = s2.LastUsedParticle)
    (hp : s1.g_particule_position_size_data = s2.g_particule_position_size_data)
    (hc : s1.g_particule_color_data = s2.g_particule_color_data) :
    smokeSimulated s1 inp = smokeSimulated s2 inp ∧
    (frame s1 inp).ParticlesContainer = (frame s2 inp).ParticlesContainer := by
  have h : smokeSimulated s1 inp = smokeSimulated s2 inp := by
    unfold smokeSimulated smokeSpawned
    rw [hpool, hcur, hp, hc]
  exact ⟨h, by unfold frame; simp only [h]⟩

/-- C13, the code at two states that differ only in the smoke pool, run
through the same frame `microFrame`: with no smoke particle alive the rain
part ends with `RaindropsCount = 1` and one live raindrop, with a smoke
particle alive in smoke slot 0 it ends with `RaindropsCount = 2` and two live
raindrops. -/
theorem rain_result_depends_on_smoke_pool :
    smokeAndRainState.RaindropsContainer = rainOnlyState.RaindropsContainer ∧
    smokeAndRainState.LastUsedParticle = rainOnlyState.LastUsedParticle ∧
    smokeAndRainState.g_particule_position_size_data_rain =
      rainOnlyState.g_particule_position_size_data_rain ∧
    smokeAndRainState.g_particule_color_data_rain =
      rainOnlyState.g_particule_color_data_rain ∧
    RaindropsCount rainOnlyState microFrame = 1 ∧
    RaindropsCount smokeAndRainState microFrame = 2 ∧
    liveCount (frame rainOnlyState microFrame).RaindropsContainer = 1 ∧
    liveCount (frame smokeAndRainState microFrame).RaindropsContainer = 2 := by
  refine ⟨rfl, rfl, rfl, rfl, ?_, ?_, ?_, ?_⟩
  · unfold RaindropsCount rainSimulated SimulateRaindrops
    rw [simulate_count, rainOnlyState_rainSpawned]
    norm_num [liveCount, spawnRain, freshSlot, List.countP_cons]
  · unfold RaindropsCount rainSimulated SimulateRaindrops
    rw [simulate_count, smokeAndRainState_rainSpawned]
    norm_num [liveCount, spawnRain, liveRaindrop, List.countP_cons]
  · show liveCount (SortRaindrops (rainSimulated rainOnlyState microFrame).pool) = 1
    unfold SortRaindrops
    rw [liveCount_perm (std_sort_perm _)]
    unfold rainSimulated SimulateRaindrops
    rw [simulate_pool, rainOnlyState_rainSpawned]
    norm_num [liveCount, integrate, advance, spawnRain, freshSlot, microFrame, List.countP_cons]
  · show liveCount (SortRaindrops (rainSimulated smokeAndRainState microFrame).pool) = 2
    unfold SortRaindrops
    rw [liveCount_perm (std_sort_perm _)]
    unfold rainSimulated SimulateRaindrops
    rw [simulate_pool, smokeAndRainState_rainSpawned]
    norm_num [liveCount, integrate, advance, spawnRain, liveRaindrop, microFrame,
      List.countP_cons]

end ParticleEngine
